import Mathlib

/-!
Shallow embedding of the workshop-management application in `src/app.py`
(TinyDB-backed document store with a shared incrementing ID counter, plus
the quote/job handlers), together with theorems settling the specification
claims about it.

Modelling conventions:
* Python `float` money/quantity values are modelled as exact rationals `ℚ`;
  `round(x, 2)` is modelled by `round2` (round half to even, Python's mode).
* ISO-8601 timestamp strings are modelled as `Nat` time points (their
  lexicographic order coincides with chronological order).
* Python truthiness on optional integer ids (`if not veh_id`) is modelled by
  `truthyOpt`: `none` and `some 0` are falsy.
* TinyDB tables are lists in insertion order; `insert` appends, `remove`
  filters by id, `update` patches every matching document.
-/

attribute [local semireducible] Rat.mul Rat.add Rat.sub Rat.inv Rat.ofScientific

namespace App

/-- Python's `round` to an integer: round half to even. Written over the
numerator and denominator of the normalized rational so that it evaluates by
kernel reduction: with `f = ⌊q⌋` and remainder `rem = num - f*den`, the
fractional part `rem/den` is compared against `1/2` by comparing `2*rem`
with `den`. -/
def rhe (q : ℚ) : ℤ :=
  let d : ℤ := q.den
  let f := Int.fdiv q.num d
  let rem := q.num - f * d
  if 2 * rem < d then f
  else if d < 2 * rem then f + 1
  else if f % 2 = 0 then f else f + 1

/-- Python's `round(x, 2)`. -/
def round2 (q : ℚ) : ℚ := rhe (q * 100) / 100

/-- One quote line item, as built by `_parse_items_from_form`. -/
structure Item where
  desc : String
  qty : ℚ
  unit_price : ℚ
  total : ℚ
deriving Repr, DecidableEq

structure Client where
  id : Nat
  full_name : String
  phone : String
  email : String
  created_at : Nat
deriving Repr, DecidableEq

structure Vehicle where
  id : Nat
  client_id : Nat
  plate : String
  brand : String
  model : String
  year : Option Nat
  vin : String
  color : String
deriving Repr, DecidableEq

structure Job where
  id : Nat
  vehicle_id : Nat
  mechanic_id : Nat
  reason : String
  description : String
  status : String
  intake_date : Nat
  delivery_date : Option Nat
  odometer_km : Option Nat
  fuel_level : String
  checklist : List (String × Nat)
deriving Repr, DecidableEq

structure Note where
  id : Nat
  job_id : Nat
  user_id : Nat
  content : String
  created_at : Nat
deriving Repr, DecidableEq

structure Quote where
  id : Nat
  job_id : Option Nat
  client_id : Option Nat
  vehicle_id : Option Nat
  client_name : String
  vehicle_label : String
  services_lines : List String
  require_invoice : Nat
  igv_rate : ℚ
  currency : String
  items : List Item
  subtotal : ℚ
  igv : ℚ
  total : ℚ
  meta : List (String × String)
  created_at : Nat
  created_by : Nat
deriving Repr, DecidableEq

/-- The persisted state: the `seq` field is the `value` of the single
`global_seq` row of the `seq` table (initialised to 1 by `_ensure_seq`);
the other fields are the entity tables in insertion order. -/
structure DB where
  seq : Nat
  clients : List Client
  vehicles : List Vehicle
  jobs : List Job
  notes : List Note
  quotes : List Quote
deriving Repr, DecidableEq

/-- `_next_id`: returns the current counter value and increments it. -/
def _next_id (db : DB) : Nat × DB := (db.seq, { db with seq := db.seq + 1 })

def insertClient (db : DB) (c : Client) : Nat × DB :=
  let p := _next_id db
  (p.1, { p.2 with clients := p.2.clients ++ [{ c with id := p.1 }] })

def insertVehicle (db : DB) (v : Vehicle) : Nat × DB :=
  let p := _next_id db
  (p.1, { p.2 with vehicles := p.2.vehicles ++ [{ v with id := p.1 }] })

def insertJob (db : DB) (j : Job) : Nat × DB :=
  let p := _next_id db
  (p.1, { p.2 with jobs := p.2.jobs ++ [{ j with id := p.1 }] })

def insertNote (db : DB) (n : Note) : Nat × DB :=
  let p := _next_id db
  (p.1, { p.2 with notes := p.2.notes ++ [{ n with id := p.1 }] })

def insertQuote (db : DB) (q : Quote) : Nat × DB :=
  let p := _next_id db
  (p.1, { p.2 with quotes := p.2.quotes ++ [{ q with id := p.1 }] })

/-- Python truthiness of an optional integer id: `None` and `0` are falsy. -/
def truthyOpt : Option Nat → Bool
  | none => false
  | some n => n != 0

/-- Python `str.strip()`: drop leading and trailing whitespace (written over
the character list so it evaluates by kernel reduction). -/
def pyStrip (s : String) : String :=
  ⟨((s.data.dropWhile Char.isWhitespace).reverse.dropWhile Char.isWhitespace).reverse⟩

/-- Python `str.upper()` (ASCII case mapping). -/
def pyUpper (s : String) : String := ⟨s.data.map Char.toUpper⟩

/-- Split a character list at every occurrence of `c`. -/
def splitChar (c : Char) (l : List Char) : List (List Char) :=
  l.foldr (fun x acc =>
    match acc with
    | [] => [[x]]
    | h :: t => if x = c then [] :: h :: t else (x :: h) :: t) [[]]

/-- Python `str.splitlines()` on `\n`-separated text: no entry is produced
for the empty tail after a terminating newline, and `""` yields `[]`. -/
def pySplitLines (s : String) : List String :=
  let parts := (splitChar '\n' s.data).map String.mk
  if parts.getLast? = some "" then parts.dropLast else parts

/-- `[x.strip() for x in s.splitlines() if x.strip()]`. -/
def splitLinesNE (s : String) : List String :=
  (pySplitLines s).foldr (fun x acc =>
    let t := pyStrip x; if t = "" then acc else t :: acc) []

/-- `_parse_items_from_form`: rows are the already-zipped
(`item_desc[]`, `item_qty[]`, `item_price[]`) triples with numbers parsed;
rows whose stripped description is empty are dropped, and each kept row gets
`total = round(qty*price, 2)`. -/
def _parse_items_from_form : List (String × ℚ × ℚ) → List Item
  | [] => []
  | r :: rest =>
    if pyStrip r.1 = "" then _parse_items_from_form rest
    else { desc := pyStrip r.1, qty := r.2.1, unit_price := r.2.2,
           total := round2 (r.2.1 * r.2.2) } :: _parse_items_from_form rest

/-- `_totals(items, require_invoice, igv_rate)` (the Python default
`igv_rate=0.18` is passed explicitly at every call site here). -/
def _totals (items : List Item) (require_invoice : Bool) (igv_rate : ℚ) : ℚ × ℚ × ℚ :=
  let subtotal := round2 (items.map (·.total)).sum
  let igv := round2 (subtotal * (if require_invoice then igv_rate else 0))
  let total := round2 (subtotal + igv)
  (subtotal, igv, total)

/-- The form data consumed by `quotes_create` (strings unstripped, numeric
fields already parsed, `need_invoice` already compared against
`('1','on','true','yes')`). -/
structure QuoteForm where
  item_rows : List (String × ℚ × ℚ)
  need_invoice : Bool
  client_name : String
  vehicle : String
  services : String
  amount : ℚ
  client_id : Option Nat
  vehicle_id : Option Nat
  job_id : Option Nat
  meta : List (String × String)

/-- `quotes_create`: build items (falling back to the simple `amount` mode),
compute totals, and insert the quote; returns the new id and the new state. -/
def quotes_create (db : DB) (f : QuoteForm) (now : Nat) (user : Nat) : Nat × DB :=
  let items0 := _parse_items_from_form f.item_rows
  let require_invoice : Nat := if f.need_invoice then 1 else 0
  let simple := items0.isEmpty
  let items :=
    if simple then
      if f.amount ≠ 0 then
        [{ desc := "Servicios", qty := 1, unit_price := f.amount, total := round2 f.amount }]
      else []
    else items0
  let client_id := if simple then none else f.client_id
  let vehicle_id := if simple then none else f.vehicle_id
  let t := _totals items (require_invoice != 0) 0.18
  let q : Quote :=
    { id := 0, job_id := f.job_id, client_id := client_id, vehicle_id := vehicle_id,
      client_name := pyStrip f.client_name, vehicle_label := pyStrip f.vehicle,
      services_lines := splitLinesNE (pyStrip f.services),
      require_invoice := require_invoice, igv_rate := 0.18, currency := "PEN",
      items := items, subtotal := t.1, igv := t.2.1, total := t.2.2,
      meta := f.meta, created_at := now, created_by := user }
  insertQuote db q

/-- `{x:.2f}` on an exact rational (Python rounds the value to 2 places,
half to even; the `-0.00` sign of negative zero is not modelled). -/
def fmt2 (x : ℚ) : String :=
  let c := rhe (x * 100)
  let a := c.natAbs
  let d := a % 100
  (if c < 0 then "-" else "") ++ toString (a / 100) ++ "." ++
    (if d < 10 then "0" else "") ++ toString d

/-- `_quote_as_text`: the plain-text rendering of a quote. -/
def _quote_as_text (q : Quote) : String :=
  let lines :=
    (if !q.services_lines.isEmpty then
      "Servicios solicitados:" :: q.services_lines.map (fun s => "- " ++ s) ++ [""]
     else if !q.items.isEmpty then
      "Ítems cotizados:" ::
        q.items.map (fun it =>
          "- " ++ it.desc ++ " · cant: " ++ fmt2 it.qty ++ " · p.u.: S/ " ++
            fmt2 it.unit_price ++ " · total: S/ " ++ fmt2 it.total) ++ [""]
     else [])
    ++ ["Subtotal: S/ " ++ fmt2 q.subtotal]
    ++ [if q.require_invoice != 0 then "IGV 18%: S/ " ++ fmt2 q.igv
        else "IGV: 0% (no factura)"]
    ++ ["TOTAL: S/ " ++ fmt2 q.total]
  String.intercalate "\n" lines

inductive DupRes
  | notFound
  | duplicated (newId : Nat)
deriving Repr, DecidableEq

/-- `quote_duplicate`: copy the pricing/descriptive fields, recompute totals,
regenerate `created_at`/`created_by`, insert as a new quote. -/
def quote_duplicate (db : DB) (quote_id : Nat) (now : Nat) (user : Nat) : DupRes × DB :=
  match db.quotes.find? (·.id == quote_id) with
  | none => (DupRes.notFound, db)
  | some q =>
    let t := _totals q.items (q.require_invoice != 0) 0.18
    let base : Quote :=
      { id := 0, job_id := q.job_id, client_id := q.client_id, vehicle_id := q.vehicle_id,
        client_name := q.client_name, vehicle_label := q.vehicle_label,
        services_lines := q.services_lines, require_invoice := q.require_invoice,
        igv_rate := q.igv_rate, currency := q.currency, items := q.items, meta := q.meta,
        subtotal := t.1, igv := t.2.1, total := t.2.2,
        created_at := now, created_by := user }
    let p := insertQuote db base
    (DupRes.duplicated p.1, p.2)

/-- The all-zero checklist built by `quote_to_job`. -/
def defaultChecklist : List (String × Nat) :=
  [("antenas", 0), ("botiquin", 0), ("documentos", 0), ("encendedor", 0),
   ("extintor", 0), ("gato", 0), ("herramientas", 0), ("llave1", 0), ("llave2", 0),
   ("llave_rueda", 0), ("pisos", 0), ("rueda_repuesto", 0), ("tag", 0),
   ("tapas", 0), ("triangulos", 0)]

inductive ConvRes
  | notFound
  | missingAssociation
  | converted (jobId : Nat)
deriving Repr, DecidableEq

/-- `quote_to_job`: convert a quote into a job plus a provenance note
(`if not veh_id or not cli_id` is Python truthiness: `None` and `0` fail). -/
def quote_to_job (db : DB) (quote_id : Nat) (now : Nat) (user : Nat) : ConvRes × DB :=
  match db.quotes.find? (·.id == quote_id) with
  | none => (ConvRes.notFound, db)
  | some q =>
    if !truthyOpt q.vehicle_id || !truthyOpt q.client_id then
      (ConvRes.missingAssociation, db)
    else
      let desc := "Creado desde Cotización #" ++ toString quote_id ++ "\n\n" ++ _quote_as_text q
      let job : Job :=
        { id := 0, vehicle_id := q.vehicle_id.getD 0, mechanic_id := user,
          reason := "Cotización #" ++ toString quote_id, description := desc,
          status := "abierto", intake_date := now, delivery_date := none,
          odometer_km := none, fuel_level := "", checklist := defaultChecklist }
      let p := insertJob db job
      let p2 := insertNote p.2
        { id := 0, job_id := p.1, user_id := user,
          content := "OT creada a partir de la Cotización #" ++ toString quote_id ++ ".",
          created_at := now }
      (ConvRes.converted p.1, p2.2)

/-- `job_change_status`: patch `status`, adding `delivery_date = now` to the
patch exactly when the new status is `entregado`. -/
def job_change_status (db : DB) (job_id : Nat) (st : String) (now : Nat) : DB :=
  { db with jobs := db.jobs.map (fun j =>
      if j.id == job_id then
        if st == "entregado" then { j with status := st, delivery_date := some now }
        else { j with status := st }
      else j) }

/-- `plate.upper().strip()`, the normalization applied to every plate input. -/
def normPlate (s : String) : String := pyStrip (pyUpper s)

/-- The form data consumed by `vehicles_new` / `vehicles_edit` (`year` is
`int(form.get('year') or 0)`, so `0` stands for an absent year). -/
structure VehicleForm where
  client_id : Nat
  plate : String
  brand : String
  model : String
  year : Nat
  vin : String
  color : String

inductive VehRes
  | duplicatePlate
  | created (id : Nat)
deriving Repr, DecidableEq

/-- `vehicles_new` (POST branch): reject when any vehicle already stores the
normalized plate, otherwise insert. -/
def vehicles_new (db : DB) (f : VehicleForm) : VehRes × DB :=
  let plate := normPlate f.plate
  if db.vehicles.any (fun v => v.plate == plate) then (VehRes.duplicatePlate, db)
  else
    let p := insertVehicle db
      { id := 0, client_id := f.client_id, plate := plate, brand := pyStrip f.brand,
        model := pyStrip f.model, year := (if f.year == 0 then none else some f.year),
        vin := pyStrip f.vin, color := pyStrip f.color }
    (VehRes.created p.1, p.2)

inductive EditRes
  | notFound
  | duplicatePlate
  | updated
deriving Repr, DecidableEq

/-- `vehicles_edit` (POST branch): reject when a vehicle with a different id
stores the normalized plate, otherwise patch the vehicle. -/
def vehicles_edit (db : DB) (vehicle_id : Nat) (f : VehicleForm) : EditRes × DB :=
  match db.vehicles.find? (·.id == vehicle_id) with
  | none => (EditRes.notFound, db)
  | some _ =>
    let plate := normPlate f.plate
    let clash := db.vehicles.filter (fun x => x.plate == plate && x.id != vehicle_id)
    if !clash.isEmpty then (EditRes.duplicatePlate, db)
    else
      (EditRes.updated, { db with vehicles := db.vehicles.map (fun v =>
        if v.id == vehicle_id then
          { v with
            client_id := f.client_id, plate := plate, brand := pyStrip f.brand,
            model := pyStrip f.model, year := (if f.year == 0 then none else some f.year),
            vin := pyStrip f.vin, color := pyStrip f.color }
        else v) })

/-- The inner loop of the cascade deletes: for each job of the vehicle
(snapshot taken at loop entry), `remove('jobs', j['id'])`. -/
def removeJobsOfVehicle (st : DB) (vid : Nat) : DB :=
  (st.jobs.filter (·.vehicle_id == vid)).foldl
    (fun s2 j => { s2 with jobs := s2.jobs.filter (·.id != j.id) }) st

/-- One iteration of `clients_delete`'s outer loop: delete the vehicle's
jobs, then `remove('vehicles', v['id'])`. -/
def deleteVehicleStep (st : DB) (v : Vehicle) : DB :=
  let st1 := removeJobsOfVehicle st v.id
  { st1 with vehicles := st1.vehicles.filter (·.id != v.id) }

/-- `clients_delete`: remove the client, then for each of its vehicles
(snapshot taken after the client removal) delete that vehicle's jobs and the
vehicle itself. -/
def clients_delete (db : DB) (client_id : Nat) : DB :=
  let db1 := { db with clients := db.clients.filter (·.id != client_id) }
  (db1.vehicles.filter (·.client_id == client_id)).foldl deleteVehicleStep db1

/-- `qs.sort(key=lambda x: x.get('created_at',''), reverse=True)`: stable
sort of quotes, newest first (Python `list.sort` is stable, and every stable
sort produces the same list, so insertion sort models it exactly). -/
def sortQuotesDesc (l : List Quote) : List Quote :=
  l.insertionSort (fun a b => b.created_at ≤ a.created_at)

/-- `_latest_quote_for_job`. -/
def _latest_quote_for_job (db : DB) (job_id : Nat) : Option Quote :=
  (sortQuotesDesc (db.quotes.filter (fun q => q.job_id == some job_id))).head?

/-- `notes.sort(key=lambda n: n.get('created_at',''))`: stable sort of
notes, oldest first. -/
def sortNotesAsc (l : List Note) : List Note :=
  l.insertionSort (fun a b => a.created_at ≤ b.created_at)

/-- The context assembled by `job_print` (the fields the claims are about;
the formatted `date` string is presentation-only and omitted). -/
structure PrintCtx where
  id : Nat
  client_name : String
  vehicle_plate : String
  tasks : List String
  subtotal : ℚ
  igv : ℚ
  total : ℚ
deriving Repr, DecidableEq

/-- `job_print`: `none` when the job is absent; otherwise tasks come from the
description's non-empty stripped lines, falling back to the contents of the
job's notes in chronological order, and totals come from the latest quote. -/
def job_print (db : DB) (job_id : Nat) : Option PrintCtx :=
  match db.jobs.find? (·.id == job_id) with
  | none => none
  | some j =>
    let v := db.vehicles.find? (·.id == j.vehicle_id)
    let c := v.bind (fun w => db.clients.find? (·.id == w.client_id))
    let tasks0 := if j.description ≠ "" then splitLinesNE j.description else []
    let tasks :=
      if tasks0.isEmpty then
        ((sortNotesAsc (db.notes.filter (·.job_id == job_id))).filter
          (fun n => n.content != "")).map (·.content)
      else tasks0
    let q := _latest_quote_for_job db job_id
    some { id := j.id,
           client_name := (c.map (·.full_name)).getD "",
           vehicle_plate := (v.map (·.plate)).getD "",
           tasks := tasks,
           subtotal := (q.map (·.subtotal)).getD 0,
           igv := (q.map (·.igv)).getD 0,
           total := (q.map (·.total)).getD 0 }

/-- One call against the store: an `insert` into some table (the document's
`id` field is overwritten by the store) or a `remove` from some table. -/
inductive Op
  | insClient (c : Client)
  | insVehicle (v : Vehicle)
  | insJob (j : Job)
  | insNote (n : Note)
  | insQuote (q : Quote)
  | remClient (i : Nat)
  | remVehicle (i : Nat)
  | remJob (i : Nat)
  | remNote (i : Nat)
  | remQuote (i : Nat)

/-- Run one store call; inserts return `some id`, removals return `none`. -/
def applyOp (db : DB) : Op → Option Nat × DB
  | .insClient c => let p := insertClient db c; (some p.1, p.2)
  | .insVehicle v => let p := insertVehicle db v; (some p.1, p.2)
  | .insJob j => let p := insertJob db j; (some p.1, p.2)
  | .insNote n => let p := insertNote db n; (some p.1, p.2)
  | .insQuote q => let p := insertQuote db q; (some p.1, p.2)
  | .remClient i => (none, { db with clients := db.clients.filter (·.id != i) })
  | .remVehicle i => (none, { db with vehicles := db.vehicles.filter (·.id != i) })
  | .remJob i => (none, { db with jobs := db.jobs.filter (·.id != i) })
  | .remNote i => (none, { db with notes := db.notes.filter (·.id != i) })
  | .remQuote i => (none, { db with quotes := db.quotes.filter (·.id != i) })

/-- Run a sequence of store calls, collecting the returned insert ids in
order. -/
def runOps (db : DB) : List Op → List Nat × DB
  | [] => ([], db)
  | op :: ops =>
    let p := applyOp db op
    let r := runOps p.2 ops
    (p.1.toList ++ r.1, r.2)

/-- A JSON scalar stored in a schemaless document. -/
inductive Val
  | vInt (n : Int)
  | vStr (s : String)
  | vNull
deriving Repr, DecidableEq

/-- A schemaless document: an association list of fields. -/
abbrev Doc := List (String × Val)

/-- Field access on a document. -/
def getField (d : Doc) (k : String) : Option Val := (d.find? (·.1 == k)).map (·.2)

/-- One field/value equality constraint holds of `d` when the field is
present with that value (TinyDB `Query().k == v`). -/
def matchesWhere (d : Doc) (w : List (String × Val)) : Bool :=
  w.all (fun kv => getField d kv.1 == some kv.2)

/-- `find(table, **where)`: AND of the field equalities, except that with
zero constraints the built query expression is `None` and `[]` is returned. -/
def find (docs : List Doc) (w : List (String × Val)) : List Doc :=
  if w.isEmpty then [] else docs.filter (fun d => matchesWhere d w)

/-! ## Theorems -/

/-- Every item built by `_parse_items_from_form` stores
`total = round(qty * unit_price, 2)`. -/
theorem parse_items_total (rows : List (String × ℚ × ℚ)) :
    ∀ it ∈ _parse_items_from_form rows, it.total = round2 (it.qty * it.unit_price) := by
  induction rows with
  | nil => intro it h; simp [_parse_items_from_form] at h
  | cons r rest ih =>
    intro it h
    rw [_parse_items_from_form] at h
    by_cases hd : pyStrip r.1 = ""
    · exact ih it (by rwa [if_pos hd] at h)
    · rw [if_neg hd, List.mem_cons] at h
      rcases h with h | h
      · subst h; rfl
      · exact ih it h

/-- C1 (amended): every quote persisted by `quotes_create` stores
`subtotal = round(sum(item.total), 2)` where each `item.total` is
`round(item.qty * item.unit_price, 2)` (the subtotal is the rounded sum of
the already-rounded line totals, not of the raw products), together with the
claimed `igv` and `total` equations. -/
theorem quotes_create_totals (db : DB) (f : QuoteForm) (now user : Nat) :
    ∀ q, (quotes_create db f now user).2.quotes.getLast? = some q →
      q.subtotal = round2 (q.items.map (·.total)).sum ∧
      (∀ it ∈ q.items, it.total = round2 (it.qty * it.unit_price)) ∧
      q.igv = round2 (q.subtotal * (if q.require_invoice ≠ 0 then q.igv_rate else 0)) ∧
      q.total = round2 (q.subtotal + q.igv) := by
  intro q hq
  simp only [quotes_create, insertQuote, _next_id, List.getLast?_concat, Option.some.injEq] at hq
  subst hq
  refine ⟨rfl, ?_, ?_, ?_⟩
  · intro it hit
    simp only at hit
    split at hit
    · split at hit
      · rw [List.mem_singleton] at hit
        subst hit
        show round2 f.amount = round2 (1 * f.amount)
        rw [one_mul]
      · exact absurd hit (List.not_mem_nil it)
    · exact parse_items_total f.item_rows it hit
  · rcases f.need_invoice with _ | _ <;> simp [_totals]
  · simp [_totals]

/-- Concrete input exercising C1's theorem: the spec's worked example
(one item "Oil change", qty 1, price 50, invoiced at 18%). -/
def C1db : DB := { seq := 1, clients := [], vehicles := [], jobs := [], notes := [], quotes := [] }

def C1form : QuoteForm :=
  { item_rows := [("Oil change", 1, 50)], need_invoice := true,
    client_name := "", vehicle := "", services := "", amount := 0,
    client_id := some 3, vehicle_id := some 4, job_id := none, meta := [] }

def C1quote : Quote :=
  { id := 1, job_id := none, client_id := some 3, vehicle_id := some 4,
    client_name := "", vehicle_label := "", services_lines := [],
    require_invoice := 1, igv_rate := 0.18, currency := "PEN",
    items := [{ desc := "Oil change", qty := 1, unit_price := 50, total := 50 }],
    subtotal := 50, igv := 9, total := 59, meta := [], created_at := 10, created_by := 7 }

/-- Witness for C1's theorem at the concrete input. -/
theorem quotes_create_totals_witness :
    C1quote.subtotal = round2 (C1quote.items.map (·.total)).sum ∧
    (∀ it ∈ C1quote.items, it.total = round2 (it.qty * it.unit_price)) ∧
    C1quote.igv = round2 (C1quote.subtotal *
      (if C1quote.require_invoice ≠ 0 then C1quote.igv_rate else 0)) ∧
    C1quote.total = round2 (C1quote.subtotal + C1quote.igv) :=
  quotes_create_totals C1db C1form 10 7 C1quote (by decide)

def C1formTiny : QuoteForm :=
  { item_rows := [("a", 1, 1/250), ("b", 1, 1/250)], need_invoice := true,
    client_name := "", vehicle := "", services := "", amount := 0,
    client_id := none, vehicle_id := none, job_id := none, meta := [] }

/-- Counterexample to C1 as stated: two lines of `qty 1 × price 0.004` are
each rounded to a `0.00` line total, so the persisted subtotal is `0.00`,
while `round(sum(item.qty*item.unit_price), 2) = round(0.008, 2) = 0.01`. -/
theorem quotes_create_claimed_subtotal_counterexample :
    ((quotes_create C1db C1formTiny 10 7).2.quotes.getLast?.map
      (fun q => (q.subtotal, round2 (q.items.map (fun it => it.qty * it.unit_price)).sum))) =
      some (0, 1/100) ∧ (0 : ℚ) ≠ 1/100 := by
  constructor
  · decide
  · decide

/-- C10: `find` with zero field/value constraints returns the empty list,
even though the AND of zero conditions holds of every document. -/
theorem find_no_constraints (docs : List Doc) :
    find docs [] = [] ∧ ∀ d ∈ docs, matchesWhere d [] = true :=
  ⟨rfl, fun _ _ => rfl⟩

def C10docs : List Doc := [[("id", Val.vInt 1)], [("id", Val.vInt 2), ("a", Val.vNull)]]

/-- Witness for C10's theorem at a concrete two-document table. -/
theorem find_no_constraints_witness :
    find C10docs [] = [] ∧ ∀ d ∈ C10docs, matchesWhere d [] = true :=
  find_no_constraints C10docs

/-- The per-job effect of a status change according to C5's amended claim:
the matched job gets the new status, and its `delivery_date` becomes the
current timestamp when the new status is `entregado` and is otherwise left
unchanged (it is never reset to null). -/
def statusPatchSpec (job_id : Nat) (st : String) (now : Nat) (j : Job) : Job :=
  if j.id = job_id then
    { j with status := st,
             delivery_date := if st = "entregado" then some now else j.delivery_date }
  else j

/-- C5 (amended): `job_change_status` maps every job through
`statusPatchSpec` and touches nothing else — so a transition to `entregado`
sets `delivery_date = now` in the same update, while a transition to any
other status leaves the old `delivery_date` in place (the claimed invariant
"`delivery_date` is null unless status is `entregado`" is not maintained
once a job leaves `entregado`). -/
theorem job_change_status_spec (db : DB) (job_id : Nat) (st : String) (now : Nat) :
    (job_change_status db job_id st now).jobs = db.jobs.map (statusPatchSpec job_id st now) ∧
    (job_change_status db job_id st now).clients = db.clients ∧
    (job_change_status db job_id st now).vehicles = db.vehicles ∧
    (job_change_status db job_id st now).notes = db.notes ∧
    (job_change_status db job_id st now).quotes = db.quotes ∧
    (job_change_status db job_id st now).seq = db.seq := by
  refine ⟨?_, rfl, rfl, rfl, rfl, rfl⟩
  show db.jobs.map _ = db.jobs.map _
  refine congrArg (fun g => db.jobs.map g) (funext fun j => ?_)
  by_cases hid : j.id = job_id
  · by_cases hst : st = "entregado"
    · simp [statusPatchSpec, hid, hst]
    · simp [statusPatchSpec, hid, hst]
  · simp [statusPatchSpec, hid]

def C5job : Job :=
  { id := 1, vehicle_id := 1, mechanic_id := 1, reason := "", description := "",
    status := "abierto", intake_date := 1, delivery_date := none, odometer_km := none,
    fuel_level := "", checklist := defaultChecklist }

def C5db : DB := { seq := 2, clients := [], vehicles := [], jobs := [C5job], notes := [], quotes := [] }

/-- Counterexample to C5 as stated: starting from an open job with a null
`delivery_date`, changing status to `entregado` at time 5 and then back to
`abierto` at time 6 leaves `delivery_date = some 5` while the status is no
longer `entregado`, violating the claimed invariant. -/
theorem job_delivery_date_invariant_counterexample :
    ((job_change_status (job_change_status C5db 1 "entregado" 5) 1 "abierto" 6).jobs.head?.map
      (fun j => (j.status, j.delivery_date))) = some ("abierto", some 5) ∧
    (some 5 : Option Nat) ≠ none := by
  exact ⟨by decide, by decide⟩

/-- The line structure of the quote rendering according to C8's amended
claim: service lines if present, otherwise itemized lines, then a subtotal
line, then the tax line — the literal `"IGV: 0% (no factura)"` when the
quote does not require an invoice, else the hard-coded 18% label with the
amount — then the total line. -/
def quoteTextSpecLines (q : Quote) : List String :=
  (if q.services_lines ≠ [] then
    "Servicios solicitados:" :: (q.services_lines.map (fun s => "- " ++ s) ++ [""])
   else if q.items ≠ [] then
    "Ítems cotizados:" ::
      (q.items.map (fun it =>
        "- " ++ it.desc ++ " · cant: " ++ fmt2 it.qty ++ " · p.u.: S/ " ++
          fmt2 it.unit_price ++ " · total: S/ " ++ fmt2 it.total) ++ [""])
   else [])
  ++ ["Subtotal: S/ " ++ fmt2 q.subtotal,
      if q.require_invoice ≠ 0 then "IGV 18%: S/ " ++ fmt2 q.igv
      else "IGV: 0% (no factura)",
      "TOTAL: S/ " ++ fmt2 q.total]

/-- C8 (amended): `_quote_as_text` renders exactly the newline-joined lines
described by `quoteTextSpecLines`, deterministically. -/
theorem quote_as_text_spec (q : Quote) :
    _quote_as_text q = String.intercalate "\n" (quoteTextSpecLines q) := by
  rw [_quote_as_text, quoteTextSpecLines]
  by_cases hri : q.require_invoice = 0 <;>
    rcases hs : q.services_lines with _ | ⟨s, ss⟩ <;>
    rcases hi : q.items with _ | ⟨i, ii⟩ <;>
    simp [hri]

def C8quote : Quote :=
  { id := 1, job_id := none, client_id := none, vehicle_id := none, client_name := "",
    vehicle_label := "", services_lines := [], require_invoice := 0, igv_rate := 0.18,
    currency := "PEN", items := [], subtotal := 0, igv := 0, total := 0, meta := [],
    created_at := 1, created_by := 1 }

/-- Counterexample to C8 as stated: for a no-invoice quote the rendered tax
line is the Spanish literal `"IGV: 0% (no factura)"`, not the claimed exact
string `"Tax: 0% (no invoice)"`. -/
theorem quote_text_tax_line_counterexample :
    (splitChar '\n' (_quote_as_text C8quote).data).map String.mk =
      ["Subtotal: S/ 0.00", "IGV: 0% (no factura)", "TOTAL: S/ 0.00"] ∧
    ("IGV: 0% (no factura)" : String) ≠ "Tax: 0% (no invoice)" := by
  exact ⟨by decide, by decide⟩

/-- C3 (amended): `quote_to_job` treats a reference as resolved only when it
is present *and non-zero* (Python truthiness); with that reading, a quote
with a missing/zero `vehicle_id` or `client_id` fails with
`MissingAssociation` leaving the store untouched, and a quote with both
references truthy inserts exactly one job (status `abierto`, all-false
checklist, reason naming the quote, description rendering the quote) and
exactly one provenance note, and nothing else. -/
theorem quote_to_job_spec (db : DB) (qid now user : Nat) :
    ∀ q, db.quotes.find? (·.id == qid) = some q →
      ((truthyOpt q.vehicle_id = false ∨ truthyOpt q.client_id = false) →
        quote_to_job db qid now user = (ConvRes.missingAssociation, db)) ∧
      (truthyOpt q.vehicle_id = true → truthyOpt q.client_id = true →
        ∃ j n, quote_to_job db qid now user =
            (ConvRes.converted j.id,
             { db with seq := db.seq + 2, jobs := db.jobs ++ [j], notes := db.notes ++ [n] }) ∧
          j.id = db.seq ∧ j.status = "abierto" ∧ j.checklist = defaultChecklist ∧
          j.reason = "Cotización #" ++ toString qid ∧
          j.description =
            "Creado desde Cotización #" ++ toString qid ++ "\n\n" ++ _quote_as_text q ∧
          j.vehicle_id = q.vehicle_id.getD 0 ∧ j.mechanic_id = user ∧
          j.intake_date = now ∧ j.delivery_date = none ∧
          n.id = db.seq + 1 ∧ n.job_id = j.id ∧ n.user_id = user ∧
          n.content = "OT creada a partir de la Cotización #" ++ toString qid ++ "." ∧
          n.created_at = now) := by
  intro q hq
  constructor
  · intro hmiss
    simp only [quote_to_job, hq]
    have hcond : (!truthyOpt q.vehicle_id || !truthyOpt q.client_id) = true := by
      rcases hmiss with h | h <;> simp [h]
    rw [if_pos hcond]
  · intro hv hc
    have hcond : (!truthyOpt q.vehicle_id || !truthyOpt q.client_id) = false := by
      simp [hv, hc]
    refine ⟨{ id := db.seq, vehicle_id := q.vehicle_id.getD 0, mechanic_id := user,
              reason := "Cotización #" ++ toString qid,
              description :=
                "Creado desde Cotización #" ++ toString qid ++ "\n\n" ++ _quote_as_text q,
              status := "abierto", intake_date := now, delivery_date := none,
              odometer_km := none, fuel_level := "", checklist := defaultChecklist },
            { id := db.seq + 1, job_id := db.seq, user_id := user,
              content := "OT creada a partir de la Cotización #" ++ toString qid ++ ".",
              created_at := now },
            ?_, rfl, rfl, rfl, rfl, rfl, rfl, rfl, rfl, rfl, rfl, rfl, rfl, rfl, rfl⟩
    simp only [quote_to_job, hq, hcond, Bool.false_eq_true, if_neg, insertJob, insertNote,
      _next_id, if_false]

def C3quote : Quote :=
  { id := 1, job_id := none, client_id := some 0, vehicle_id := some 2,
    client_name := "Juan", vehicle_label := "ABC-123", services_lines := [],
    require_invoice := 0, igv_rate := 0.18, currency := "PEN", items := [],
    subtotal := 0, igv := 0, total := 0, meta := [], created_at := 1, created_by := 1 }

def C3db : DB := { seq := 3, clients := [], vehicles := [], jobs := [], notes := [], quotes := [C3quote] }

/-- Counterexample to C3 as stated: a quote whose `client_id` is present and
non-null (`Some 0`) and whose `vehicle_id` is present and non-null (`Some 2`)
still fails with `MissingAssociation` and inserts no job and no note,
because the code tests Python truthiness and id `0` is falsy. -/
theorem quote_to_job_zero_id_counterexample :
    C3quote.client_id.isSome = true ∧ C3quote.vehicle_id.isSome = true ∧
    quote_to_job C3db 1 5 9 = (ConvRes.missingAssociation, C3db) ∧
    (quote_to_job C3db 1 5 9).2.jobs = [] ∧ (quote_to_job C3db 1 5 9).2.notes = [] := by
  refine ⟨by decide, by decide, by decide, by decide, by decide⟩

def C3quoteOk : Quote := { C3quote with client_id := some 7 }

def C3dbOk : DB := { C3db with quotes := [C3quoteOk] }

/-- Witness for C3's theorem: both branches exercised at concrete stores. -/
theorem quote_to_job_spec_witness :
    quote_to_job C3db 1 5 9 = (ConvRes.missingAssociation, C3db) ∧
    (quote_to_job C3dbOk 1 5 9).1 = ConvRes.converted 3 := by
  constructor
  · exact (quote_to_job_spec C3db 1 5 9 C3quote (by decide)).1 (by decide)
  · obtain ⟨j, n, heq, hid, _⟩ :=
      (quote_to_job_spec C3dbOk 1 5 9 C3quoteOk (by decide)).2 (by decide) (by decide)
    rw [heq]
    exact congrArg ConvRes.converted hid

/-- C4 (amended): duplicating an absent quote fails with `NotFound` and
inserts nothing; duplicating an existing quote `q` (in a store whose ids are
below the counter) appends exactly one new quote whose `items`,
`require_invoice` and the other pricing/descriptive fields equal `q`'s,
whose totals are recomputed from the copied items, and whose `id` differs
from `q`'s, while `created_at`/`created_by` are regenerated to the
duplication timestamp and the duplicating user (so they differ from `q`'s
whenever those differ, but are not guaranteed different in general). -/
theorem quote_duplicate_spec (db : DB) (qid now user : Nat) :
    (db.quotes.find? (·.id == qid) = none →
      quote_duplicate db qid now user = (DupRes.notFound, db)) ∧
    (∀ q, db.quotes.find? (·.id == qid) = some q → q.id < db.seq →
      ∃ nq, quote_duplicate db qid now user =
          (DupRes.duplicated nq.id, { db with seq := db.seq + 1, quotes := db.quotes ++ [nq] }) ∧
        nq.id = db.seq ∧ nq.id ≠ q.id ∧
        nq.items = q.items ∧ nq.require_invoice = q.require_invoice ∧
        nq.services_lines = q.services_lines ∧ nq.client_id = q.client_id ∧
        nq.vehicle_id = q.vehicle_id ∧ nq.client_name = q.client_name ∧
        nq.vehicle_label = q.vehicle_label ∧ nq.igv_rate = q.igv_rate ∧
        nq.currency = q.currency ∧ nq.meta = q.meta ∧ nq.job_id = q.job_id ∧
        (nq.subtotal, nq.igv, nq.total) = _totals q.items (q.require_invoice != 0) 0.18 ∧
        nq.created_at = now ∧ nq.created_by = user ∧
        (now ≠ q.created_at → nq.created_at ≠ q.created_at) ∧
        (user ≠ q.created_by → nq.created_by ≠ q.created_by)) := by
  constructor
  · intro h
    simp only [quote_duplicate, h]
  · intro q hq hlt
    refine ⟨{ id := db.seq, job_id := q.job_id, client_id := q.client_id,
              vehicle_id := q.vehicle_id, client_name := q.client_name,
              vehicle_label := q.vehicle_label, services_lines := q.services_lines,
              require_invoice := q.require_invoice, igv_rate := q.igv_rate,
              currency := q.currency, items := q.items, meta := q.meta,
              subtotal := (_totals q.items (q.require_invoice != 0) 0.18).1,
              igv := (_totals q.items (q.require_invoice != 0) 0.18).2.1,
              total := (_totals q.items (q.require_invoice != 0) 0.18).2.2,
              created_at := now, created_by := user },
            ?_, rfl, Nat.ne_of_gt hlt,
            rfl, rfl, rfl, rfl, rfl, rfl, rfl, rfl, rfl, rfl, rfl, rfl, rfl, rfl,
            fun h => h, fun h => h⟩
    simp only [quote_duplicate, hq, insertQuote, _next_id]

def C4quote : Quote :=
  { id := 1, job_id := none, client_id := none, vehicle_id := none, client_name := "Ana",
    vehicle_label := "", services_lines := ["lavado"], require_invoice := 0,
    igv_rate := 0.18, currency := "PEN", items := [], subtotal := 0, igv := 0, total := 0,
    meta := [], created_at := 5, created_by := 7 }

def C4db : DB := { seq := 2, clients := [], vehicles := [], jobs := [], notes := [], quotes := [C4quote] }

/-- Counterexample to C4 as stated: when user 7 duplicates the quote user 7
created, the duplicate's `created_by` equals the source's, so "`created_by`
differs from q's" fails. -/
theorem quote_duplicate_created_by_counterexample :
    ((quote_duplicate C4db 1 9 7).2.quotes.getLast?.map (·.created_by)) = some 7 ∧
    C4quote.created_by = 7 ∧ (quote_duplicate C4db 1 9 7).1 = DupRes.duplicated 2 := by
  refine ⟨by decide, by decide, by decide⟩

/-- Witness for C4's theorem: both branches exercised at concrete stores. -/
theorem quote_duplicate_spec_witness :
    quote_duplicate C4db 99 9 7 = (DupRes.notFound, C4db) ∧
    (quote_duplicate C4db 1 9 8).1 = DupRes.duplicated 2 := by
  constructor
  · exact (quote_duplicate_spec C4db 99 9 7).1 (by decide)
  · obtain ⟨nq, heq, hid, _⟩ :=
      (quote_duplicate_spec C4db 1 9 8).2 C4quote (by decide) (by decide)
    rw [heq]
    exact congrArg DupRes.duplicated hid

/-- C6: in a store whose vehicles all carry normalized plates, pairwise
distinct (the invariant the handlers maintain): inserting a vehicle whose
plate equals an existing vehicle's plate case-insensitively after
normalization fails with `DuplicatePlate` and inserts nothing; editing a
vehicle keeping its own plate succeeds; editing it to a plate held by a
different vehicle fails with `DuplicatePlate` and changes nothing. -/
theorem vehicle_plate_unique_spec (db : DB) (f : VehicleForm) (vid : Nat)
    (hnorm : ∀ v ∈ db.vehicles, normPlate v.plate = v.plate)
    (hnodup : (db.vehicles.map (·.plate)).Nodup) :
    ((∃ v ∈ db.vehicles, normPlate f.plate = normPlate v.plate) →
      vehicles_new db f = (VehRes.duplicatePlate, db)) ∧
    (∀ v ∈ db.vehicles, v.id = vid → normPlate f.plate = normPlate v.plate →
      (vehicles_edit db vid f).1 = EditRes.updated) ∧
    (∀ v ∈ db.vehicles, v.id = vid →
      (∃ x ∈ db.vehicles, x.id ≠ vid ∧ normPlate f.plate = normPlate x.plate) →
      vehicles_edit db vid f = (EditRes.duplicatePlate, db)) := by
  refine ⟨?_, ?_, ?_⟩
  · rintro ⟨v, hv, hpl⟩
    have hany : db.vehicles.any (fun w => w.plate == normPlate f.plate) = true := by
      rw [List.any_eq_true]
      exact ⟨v, hv, by rw [beq_iff_eq, ← hnorm v hv, hpl]⟩
    simp only [vehicles_new, hany, if_pos]
  · intro v hv hvid hpl
    obtain ⟨w, hw⟩ : ∃ w, db.vehicles.find? (·.id == vid) = some w := by
      have : (db.vehicles.find? (·.id == vid)).isSome := by
        rw [List.find?_isSome]
        exact ⟨v, hv, by rw [beq_iff_eq, hvid]⟩
      exact Option.isSome_iff_exists.mp this
    have hclash : db.vehicles.filter
        (fun x => x.plate == normPlate f.plate && x.id != vid) = [] := by
      rw [List.filter_eq_nil_iff]
      intro x hx
      rw [Bool.and_eq_true, beq_iff_eq, bne_iff_ne, ne_eq, not_and]
      intro hxp hxid
      have hxv : x = v := by
        refine List.inj_on_of_nodup_map hnodup hx hv ?_
        rw [hxp, hpl]
        exact hnorm v hv
      exact hxid (hxv ▸ hvid)
    simp only [vehicles_edit, hw, hclash, List.isEmpty_nil, Bool.not_true,
      Bool.false_eq_true, if_neg, if_false]
  · intro v hv hvid hclash
    obtain ⟨w, hw⟩ : ∃ w, db.vehicles.find? (·.id == vid) = some w := by
      have : (db.vehicles.find? (·.id == vid)).isSome := by
        rw [List.find?_isSome]
        exact ⟨v, hv, by rw [beq_iff_eq, hvid]⟩
      exact Option.isSome_iff_exists.mp this
    obtain ⟨x, hx, hxid, hxp⟩ := hclash
    have hmem : x ∈ db.vehicles.filter
        (fun y => y.plate == normPlate f.plate && y.id != vid) := by
      rw [List.mem_filter]
      exact ⟨hx, by rw [Bool.and_eq_true, beq_iff_eq, bne_iff_ne]
                    exact ⟨by rw [← hnorm x hx, hxp], hxid⟩⟩
    have hne : db.vehicles.filter
        (fun y => y.plate == normPlate f.plate && y.id != vid) ≠ [] :=
      List.ne_nil_of_mem hmem
    have hempty : (db.vehicles.filter
        (fun y => y.plate == normPlate f.plate && y.id != vid)).isEmpty = false := by
      rw [List.isEmpty_eq_false_iff_exists_mem]
      exact ⟨x, hmem⟩
    simp [vehicles_edit, hw, hempty]

def C6veh1 : Vehicle :=
  { id := 1, client_id := 1, plate := "ABC-123", brand := "", model := "",
    year := none, vin := "", color := "" }

def C6veh2 : Vehicle :=
  { id := 2, client_id := 1, plate := "XYZ-9", brand := "", model := "",
    year := none, vin := "", color := "" }

def C6db : DB :=
  { seq := 3, clients := [], vehicles := [C6veh1, C6veh2], jobs := [], notes := [], quotes := [] }

def C6formDup : VehicleForm :=
  { client_id := 1, plate := " abc-123 ", brand := "", model := "", year := 0,
    vin := "", color := "" }

def C6formClash : VehicleForm :=
  { client_id := 1, plate := "xyz-9", brand := "", model := "", year := 0,
    vin := "", color := "" }

/-- Witness for C6's theorem: in a two-vehicle store, inserting a plate that
normalizes to an existing one fails, editing vehicle 1 back to its own plate
succeeds, and editing vehicle 1 to vehicle 2's plate fails. -/
theorem vehicle_plate_unique_spec_witness :
    vehicles_new C6db C6formDup = (VehRes.duplicatePlate, C6db) ∧
    (vehicles_edit C6db 1 C6formDup).1 = EditRes.updated ∧
    vehicles_edit C6db 1 C6formClash = (EditRes.duplicatePlate, C6db) := by
  obtain ⟨h1, h2, h3⟩ := vehicle_plate_unique_spec C6db C6formDup 1 (by decide) (by decide)
  refine ⟨h1 ⟨C6veh1, by decide, by decide⟩, h2 C6veh1 (by decide) (by decide) (by decide), ?_⟩
  obtain ⟨_, _, h3c⟩ := vehicle_plate_unique_spec C6db C6formClash 1 (by decide) (by decide)
  exact h3c C6veh1 (by decide) (by decide) ⟨C6veh2, by decide, by decide, by decide⟩

/-- Membership after iterated filtering: an element that survives a left
fold of filters was in the initial list and satisfies every filter. -/
theorem mem_foldl_filter {α β : Type} (P : α → β → Bool) :
    ∀ (L : List α) (init : List β) (x : β),
      x ∈ L.foldl (fun acc a => acc.filter (P a)) init →
      x ∈ init ∧ ∀ a ∈ L, P a x = true := by
  intro L
  induction L with
  | nil => intro init x hx; exact ⟨hx, by intro a ha; cases ha⟩
  | cons a L ih =>
    intro init x hx
    rw [List.foldl_cons] at hx
    obtain ⟨hmem, hall⟩ := ih (init.filter (P a)) x hx
    rw [List.mem_filter] at hmem
    refine ⟨hmem.1, ?_⟩
    intro b hb
    rcases List.mem_cons.mp hb with hb | hb
    · exact hb ▸ hmem.2
    · exact hall b hb

/-- The inner cascade loop only rewrites the `jobs` table. -/
theorem removeJobsOfVehicle_fields (st : DB) (vid : Nat) :
    (removeJobsOfVehicle st vid).clients = st.clients ∧
    (removeJobsOfVehicle st vid).vehicles = st.vehicles ∧
    (removeJobsOfVehicle st vid).notes = st.notes ∧
    (removeJobsOfVehicle st vid).quotes = st.quotes ∧
    (removeJobsOfVehicle st vid).seq = st.seq ∧
    (removeJobsOfVehicle st vid).jobs =
      (st.jobs.filter (·.vehicle_id == vid)).foldl
        (fun js j => js.filter (·.id != j.id)) st.jobs := by
  rw [removeJobsOfVehicle]
  generalize st.jobs.filter (·.vehicle_id == vid) = L
  induction L generalizing st with
  | nil => exact ⟨rfl, rfl, rfl, rfl, rfl, rfl⟩
  | cons j L ih =>
    rw [List.foldl_cons, List.foldl_cons]
    exact ih { st with jobs := st.jobs.filter (·.id != j.id) }

/-- After the inner cascade loop, no job of the vehicle remains. -/
theorem removeJobsOfVehicle_jobs (st : DB) (vid : Nat) :
    ∀ j ∈ (removeJobsOfVehicle st vid).jobs, j ∈ st.jobs ∧ j.vehicle_id ≠ vid := by
  intro j hj
  rw [(removeJobsOfVehicle_fields st vid).2.2.2.2.2] at hj
  obtain ⟨hmem, hall⟩ := mem_foldl_filter (fun (a b : Job) => b.id != a.id) _ _ j hj
  refine ⟨hmem, fun hveh => ?_⟩
  have hjS : j ∈ st.jobs.filter (·.vehicle_id == vid) :=
    List.mem_filter.mpr ⟨hmem, by rw [beq_iff_eq]; exact hveh⟩
  have := hall j hjS
  rw [bne_self_eq_false] at this
  cases this

/-- One outer cascade iteration removes the vehicle and its jobs and leaves
the other tables alone. -/
theorem deleteVehicleStep_spec (st : DB) (v : Vehicle) :
    (deleteVehicleStep st v).clients = st.clients ∧
    (deleteVehicleStep st v).notes = st.notes ∧
    (deleteVehicleStep st v).quotes = st.quotes ∧
    (deleteVehicleStep st v).seq = st.seq ∧
    (∀ w ∈ (deleteVehicleStep st v).vehicles, w ∈ st.vehicles ∧ w.id ≠ v.id) ∧
    (∀ j ∈ (deleteVehicleStep st v).jobs, j ∈ st.jobs ∧ j.vehicle_id ≠ v.id) := by
  obtain ⟨hc, hv, hn, hq, hs, hj⟩ := removeJobsOfVehicle_fields st v.id
  refine ⟨hc, hn, hq, hs, ?_, ?_⟩
  · intro w hw
    rw [deleteVehicleStep] at hw
    simp only [List.mem_filter, hv] at hw
    exact ⟨hw.1, by simpa [bne_iff_ne] using hw.2⟩
  · intro j hj2
    rw [deleteVehicleStep] at hj2
    exact removeJobsOfVehicle_jobs st v.id j hj2

/-- Folding the outer cascade over a vehicle list removes every listed
vehicle and all of their jobs, leaving the other tables alone. -/
theorem foldl_deleteVehicleStep_spec :
    ∀ (T : List Vehicle) (st : DB),
      (T.foldl deleteVehicleStep st).clients = st.clients ∧
      (T.foldl deleteVehicleStep st).notes = st.notes ∧
      (T.foldl deleteVehicleStep st).quotes = st.quotes ∧
      (∀ w ∈ (T.foldl deleteVehicleStep st).vehicles,
        w ∈ st.vehicles ∧ ∀ v ∈ T, w.id ≠ v.id) ∧
      (∀ j ∈ (T.foldl deleteVehicleStep st).jobs,
        j ∈ st.jobs ∧ ∀ v ∈ T, j.vehicle_id ≠ v.id) := by
  intro T
  induction T with
  | nil =>
    intro st
    exact ⟨rfl, rfl, rfl,
      fun w hw => ⟨hw, by intro v hv; cases hv⟩,
      fun j hj => ⟨hj, by intro v hv; cases hv⟩⟩
  | cons v T ih =>
    intro st
    rw [List.foldl_cons]
    obtain ⟨ihc, ihn, ihq, ihv, ihj⟩ := ih (deleteVehicleStep st v)
    obtain ⟨sc, sn, sq, ss, sv, sj⟩ := deleteVehicleStep_spec st v
    refine ⟨ihc.trans sc, ihn.trans sn, ihq.trans sq, ?_, ?_⟩
    · intro w hw
      obtain ⟨hw1, hw2⟩ := ihv w hw
      obtain ⟨hw3, hw4⟩ := sv w hw1
      refine ⟨hw3, ?_⟩
      intro u hu
      rcases List.mem_cons.mp hu with hu | hu
      · exact hu ▸ hw4
      · exact hw2 u hu
    · intro j hj
      obtain ⟨hj1, hj2⟩ := ihj j hj
      obtain ⟨hj3, hj4⟩ := sj j hj1
      refine ⟨hj3, ?_⟩
      intro u hu
      rcases List.mem_cons.mp hu with hu | hu
      · exact hu ▸ hj4
      · exact hj2 u hu

/-- C7: deleting a client removes the client, every vehicle of that client,
and every job of those vehicles, while the notes and quotes tables are left
exactly as they were. -/
theorem clients_delete_cascade (db : DB) (cid : Nat) :
    (∀ c ∈ (clients_delete db cid).clients, c.id ≠ cid) ∧
    (∀ w ∈ (clients_delete db cid).vehicles, w.client_id ≠ cid) ∧
    (∀ v ∈ db.vehicles, v.client_id = cid →
      ∀ j ∈ (clients_delete db cid).jobs, j.vehicle_id ≠ v.id) ∧
    (clients_delete db cid).notes = db.notes ∧
    (clients_delete db cid).quotes = db.quotes := by
  rw [clients_delete]
  obtain ⟨hc, hn, hq, hv, hj⟩ := foldl_deleteVehicleStep_spec
    ((db.vehicles.filter (·.client_id == cid)))
    { db with clients := db.clients.filter (·.id != cid) }
  refine ⟨?_, ?_, ?_, hn, hq⟩
  · intro c hcmem
    rw [hc] at hcmem
    simp only [List.mem_filter] at hcmem
    simpa [bne_iff_ne] using hcmem.2
  · intro w hw
    obtain ⟨hw1, hw2⟩ := hv w hw
    intro hwc
    have hwT : w ∈ db.vehicles.filter (·.client_id == cid) :=
      List.mem_filter.mpr ⟨hw1, by rw [beq_iff_eq]; exact hwc⟩
    exact hw2 w hwT rfl
  · intro v hvmem hvc j hjmem
    have hvT : v ∈ db.vehicles.filter (·.client_id == cid) :=
      List.mem_filter.mpr ⟨hvmem, by rw [beq_iff_eq]; exact hvc⟩
    exact (hj j hjmem).2 v hvT

def C7client : Client := { id := 1, full_name := "Ana", phone := "", email := "", created_at := 1 }

def C7db : DB :=
  { seq := 9, clients := [C7client],
    vehicles := [{ id := 2, client_id := 1, plate := "AAA-1", brand := "", model := "",
                   year := none, vin := "", color := "" },
                 { id := 3, client_id := 1, plate := "BBB-2", brand := "", model := "",
                   year := none, vin := "", color := "" }],
    jobs := [{ id := 4, vehicle_id := 2, mechanic_id := 1, reason := "r", description := "",
               status := "abierto", intake_date := 1, delivery_date := none,
               odometer_km := none, fuel_level := "", checklist := defaultChecklist },
             { id := 5, vehicle_id := 3, mechanic_id := 1, reason := "s", description := "",
               status := "listo", intake_date := 2, delivery_date := none,
               odometer_km := none, fuel_level := "", checklist := defaultChecklist }],
    notes := [{ id := 6, job_id := 4, user_id := 1, content := "nota", created_at := 3 }],
    quotes := [{ id := 7, job_id := some 4, client_id := some 1, vehicle_id := some 2,
                 client_name := "", vehicle_label := "", services_lines := [],
                 require_invoice := 0, igv_rate := 0.18, currency := "PEN", items := [],
                 subtotal := 0, igv := 0, total := 0, meta := [], created_at := 4,
                 created_by := 1 }] }

/-- Witness for C7's theorem at a concrete one-client, two-vehicle,
two-job store with a note and a quote referencing the deleted entities. -/
theorem clients_delete_cascade_witness :
    (∀ c ∈ (clients_delete C7db 1).clients, c.id ≠ 1) ∧
    (∀ w ∈ (clients_delete C7db 1).vehicles, w.client_id ≠ 1) ∧
    (∀ v ∈ C7db.vehicles, v.client_id = 1 →
      ∀ j ∈ (clients_delete C7db 1).jobs, j.vehicle_id ≠ v.id) ∧
    (clients_delete C7db 1).notes = C7db.notes ∧
    (clients_delete C7db 1).quotes = C7db.quotes :=
  clients_delete_cascade C7db 1

/-- Every id stored in any table of the database. -/
def allIds (db : DB) : List Nat :=
  db.clients.map (·.id) ++ db.vehicles.map (·.id) ++ db.jobs.map (·.id) ++
    db.notes.map (·.id) ++ db.quotes.map (·.id)

/-- Each store call either returns the current counter value and bumps the
counter (inserts) or returns nothing and leaves the counter alone
(removals). -/
theorem applyOp_cases (db : DB) (op : Op) :
    ((applyOp db op).1 = some db.seq ∧ (applyOp db op).2.seq = db.seq + 1) ∨
    ((applyOp db op).1 = none ∧ (applyOp db op).2.seq = db.seq) := by
  cases op <;>
    simp [applyOp, insertClient, insertVehicle, insertJob, insertNote, insertQuote, _next_id]

/-- Running a call sequence never decreases the counter, returns a strictly
increasing id list, and every returned id lies in `[seq, seq')`. -/
theorem runOps_spec : ∀ (ops : List Op) (db : DB),
    db.seq ≤ (runOps db ops).2.seq ∧
    List.Chain' (· < ·) (runOps db ops).1 ∧
    (∀ i ∈ (runOps db ops).1, db.seq ≤ i ∧ i < (runOps db ops).2.seq) := by
  intro ops
  induction ops with
  | nil =>
    intro db
    exact ⟨Nat.le_refl _, List.chain'_nil, by intro i hi; cases hi⟩
  | cons op ops ih =>
    intro db
    obtain ⟨hseq, hchain, hbound⟩ := ih (applyOp db op).2
    have hrun2 : (runOps db (op :: ops)).2 = (runOps (applyOp db op).2 ops).2 := by
      simp [runOps]
    rcases applyOp_cases db op with ⟨h1, h2⟩ | ⟨h1, h2⟩
    · have hrun1 : (runOps db (op :: ops)).1 = db.seq :: (runOps (applyOp db op).2 ops).1 := by
        simp [runOps, h1]
      rw [hrun1, hrun2]
      refine ⟨?_, ?_, ?_⟩
      · have := h2 ▸ hseq
        omega
      · rw [List.chain'_cons']
        refine ⟨?_, hchain⟩
        intro b hb
        have hbmem : b ∈ (runOps (applyOp db op).2 ops).1 := List.mem_of_mem_head? hb
        have h3 := (hbound b hbmem).1
        have := h2 ▸ hseq
        omega
      · intro i hi
        rcases List.mem_cons.mp hi with hi | hi
        · subst hi
          have := h2 ▸ hseq
          omega
        · have h3 := hbound i hi
          have := h2 ▸ hseq
          omega
    · have hrun1 : (runOps db (op :: ops)).1 = (runOps (applyOp db op).2 ops).1 := by
        simp [runOps, h1]
      rw [hrun1, hrun2]
      refine ⟨h2 ▸ hseq, hchain, fun i hi => ?_⟩
      have h3 := hbound i hi
      have := h2 ▸ hseq
      omega

/-- C2: across any mix of collections, a sequence of store calls returns
strictly increasing, never-repeating insert ids, and — when every id already
stored is below the counter, as in every reachable state — every id already
present (including ids of entities deleted during the run) stays strictly
below every newly returned id, so no id is ever reassigned. -/
theorem insert_ids_monotonic (db : DB) (ops : List Op) :
    List.Chain' (· < ·) (runOps db ops).1 ∧
    (runOps db ops).1.Nodup ∧
    ((∀ i ∈ allIds db, i < db.seq) →
      ∀ old ∈ allIds db, ∀ new ∈ (runOps db ops).1, old < new) := by
  obtain ⟨hseq, hchain, hbound⟩ := runOps_spec ops db
  refine ⟨hchain, ?_, ?_⟩
  · have hp : (runOps db ops).1.Pairwise (· < ·) := List.chain'_iff_pairwise.mp hchain
    exact hp.imp Nat.ne_of_lt
  · intro hwf old hold new hnew
    exact lt_of_lt_of_le (hwf old hold) (hbound new hnew).1

def C2db : DB :=
  { seq := 2,
    clients := [{ id := 1, full_name := "Eva", phone := "", email := "", created_at := 1 }],
    vehicles := [], jobs := [], notes := [], quotes := [] }

def C2ops : List Op :=
  [Op.insClient { id := 0, full_name := "Luis", phone := "", email := "", created_at := 2 },
   Op.insVehicle { id := 0, client_id := 2, plate := "CCC-3", brand := "", model := "",
                   year := none, vin := "", color := "" },
   Op.remClient 1,
   Op.insNote { id := 0, job_id := 9, user_id := 1, content := "n", created_at := 3 },
   Op.remVehicle 3,
   Op.insQuote { id := 0, job_id := none, client_id := none, vehicle_id := none,
                 client_name := "", vehicle_label := "", services_lines := [],
                 require_invoice := 0, igv_rate := 0.18, currency := "PEN", items := [],
                 subtotal := 0, igv := 0, total := 0, meta := [], created_at := 4,
                 created_by := 1 }]

/-- Witness for C2's theorem on a mixed insert/remove sequence over a store
holding one client, with the well-formedness hypothesis discharged. -/
theorem insert_ids_monotonic_witness :
    List.Chain' (· < ·) (runOps C2db C2ops).1 ∧
    (runOps C2db C2ops).1.Nodup ∧
    (∀ old ∈ allIds C2db, ∀ new ∈ (runOps C2db C2ops).1, old < new) := by
  obtain ⟨h1, h2, h3⟩ := insert_ids_monotonic C2db C2ops
  exact ⟨h1, h2, h3 (by decide)⟩

instance : IsTotal Quote (fun a b => b.created_at ≤ a.created_at) :=
  ⟨fun a b => Nat.le_total b.created_at a.created_at⟩

instance : IsTrans Quote (fun a b => b.created_at ≤ a.created_at) :=
  ⟨fun _ _ _ h1 h2 => Nat.le_trans h2 h1⟩

instance : IsTotal Note (fun a b => a.created_at ≤ b.created_at) :=
  ⟨fun a b => Nat.le_total a.created_at b.created_at⟩

instance : IsTrans Note (fun a b => a.created_at ≤ b.created_at) :=
  ⟨fun _ _ _ h1 h2 => Nat.le_trans h1 h2⟩

/-- `splitLinesNE` of the empty description is empty. -/
theorem splitLinesNE_empty : splitLinesNE "" = [] := rfl

/-- C9: for an existing job, the printable document's task list is the
description's non-empty stripped lines; when that is empty it is the
contents of the job's notes in chronological oldest-first order (a sorted
permutation of the job's notes, empty contents dropped); the attached
totals are the stored totals of a latest quote of the job (a quote of the
job whose `created_at` is maximal), or all zero when the job has none. -/
theorem job_print_spec (db : DB) (jid : Nat) :
    ∀ j, db.jobs.find? (·.id == jid) = some j →
      ∃ ctx, job_print db jid = some ctx ∧
        (splitLinesNE j.description ≠ [] → ctx.tasks = splitLinesNE j.description) ∧
        (splitLinesNE j.description = [] →
          ∃ ns, ns.Perm (db.notes.filter (·.job_id == jid)) ∧
            List.Sorted (fun a b => a.created_at ≤ b.created_at) ns ∧
            ctx.tasks = (ns.filter (fun n => n.content != "")).map (·.content)) ∧
        (db.quotes.filter (fun q => q.job_id == some jid) = [] →
          ctx.subtotal = 0 ∧ ctx.igv = 0 ∧ ctx.total = 0) ∧
        (db.quotes.filter (fun q => q.job_id == some jid) ≠ [] →
          ∃ q ∈ db.quotes.filter (fun q => q.job_id == some jid),
            (∀ q2 ∈ db.quotes.filter (fun q => q.job_id == some jid),
              q2.created_at ≤ q.created_at) ∧
            ctx.subtotal = q.subtotal ∧ ctx.igv = q.igv ∧ ctx.total = q.total) := by
  intro j hj
  simp only [job_print, hj]
  refine ⟨_, rfl, ?_, ?_, ?_, ?_⟩
  · intro h
    have hd : j.description ≠ "" := by
      intro he
      rw [he, splitLinesNE_empty] at h
      exact h rfl
    have h0 : (if j.description ≠ "" then splitLinesNE j.description else []) =
        splitLinesNE j.description := if_pos hd
    show (if (if j.description ≠ "" then splitLinesNE j.description else []).isEmpty
            then _ else _) = _
    rw [h0, List.isEmpty_eq_false_iff_exists_mem.mpr
      (List.exists_mem_of_ne_nil _ h)]
    rfl
  · intro h
    have h0 : (if j.description ≠ "" then splitLinesNE j.description else []) = [] := by
      by_cases hd : j.description = ""
      · rw [if_neg]; simp [hd]
      · rw [if_pos hd, h]
    refine ⟨sortNotesAsc (db.notes.filter (·.job_id == jid)), ?_, ?_, ?_⟩
    · exact List.perm_insertionSort _ _
    · exact List.sorted_insertionSort _ _
    · show (if (if j.description ≠ "" then splitLinesNE j.description else []).isEmpty
              then _ else _) = _
      rw [h0]
      rfl
  · intro h
    have hl : _latest_quote_for_job db jid = none := by
      rw [_latest_quote_for_job, sortQuotesDesc, h]
      rfl
    rw [hl]
    exact ⟨rfl, rfl, rfl⟩
  · intro h
    have hperm := List.perm_insertionSort
      (fun (a b : Quote) => b.created_at ≤ a.created_at)
      (db.quotes.filter (fun q => q.job_id == some jid))
    have hsorted := List.sorted_insertionSort
      (fun (a b : Quote) => b.created_at ≤ a.created_at)
      (db.quotes.filter (fun q => q.job_id == some jid))
    have hne : sortQuotesDesc (db.quotes.filter (fun q => q.job_id == some jid)) ≠ [] := by
      intro he
      rw [sortQuotesDesc] at he
      have hpn : (db.quotes.filter (fun q => q.job_id == some jid)).Perm [] := by
        rw [← he]
        exact hperm.symm
      exact h hpn.eq_nil
    obtain ⟨q, rest, hcons⟩ := List.exists_cons_of_ne_nil hne
    rw [sortQuotesDesc] at hcons
    have hqmem : q ∈ db.quotes.filter (fun q => q.job_id == some jid) := by
      rw [← hperm.mem_iff, hcons]
      exact List.mem_cons_self q rest
    have hl : _latest_quote_for_job db jid = some q := by
      rw [_latest_quote_for_job, sortQuotesDesc, hcons]
      rfl
    refine ⟨q, hqmem, ?_, ?_⟩
    · intro q2 hq2
      rw [← hperm.mem_iff, hcons, List.mem_cons] at hq2
      rcases hq2 with hq2 | hq2
      · exact hq2 ▸ Nat.le_refl _
      · exact List.rel_of_sorted_cons (hcons ▸ hsorted) q2 hq2
    · rw [hl]
      exact ⟨rfl, rfl, rfl⟩

def C9job : Job :=
  { id := 4, vehicle_id := 2, mechanic_id := 1, reason := "mantenimiento",
    description := "Cambiar aceite\n\n  Revisar frenos  ", status := "abierto",
    intake_date := 1, delivery_date := none, odometer_km := none, fuel_level := "",
    checklist := defaultChecklist }

def C9qA : Quote :=
  { id := 5, job_id := some 4, client_id := none, vehicle_id := none, client_name := "",
    vehicle_label := "", services_lines := [], require_invoice := 0, igv_rate := 0.18,
    currency := "PEN", items := [], subtotal := 80, igv := 0, total := 80, meta := [],
    created_at := 3, created_by := 1 }

def C9qB : Quote :=
  { C9qA with id := 6, subtotal := 120, total := 120, created_at := 8 }

def C9db : DB :=
  { seq := 9, clients := [], vehicles := [], jobs := [C9job], notes := [],
    quotes := [C9qA, C9qB] }

/-- Witness for C9's theorem: a job whose description yields two task lines
and whose two quotes are resolved to the later one (created at 8). -/
theorem job_print_spec_witness :
    ∃ ctx, job_print C9db 4 = some ctx ∧
      ctx.tasks = ["Cambiar aceite", "Revisar frenos"] ∧ ctx.subtotal = 120 := by
  obtain ⟨ctx, hctx, ht, _, _, hq⟩ := job_print_spec C9db 4 C9job (by decide)
  refine ⟨ctx, hctx, ?_, ?_⟩
  · rw [ht (by decide)]
    decide
  · obtain ⟨q, hqmem, hmax, hsub, _, _⟩ := hq (by decide)
    have hqcases : q = C9qA ∨ q = C9qB := by
      have h2 := hqmem
      rw [(by decide : C9db.quotes.filter (fun q => q.job_id == some 4) = [C9qA, C9qB])] at h2
      simpa using h2
    rcases hqcases with he | he
    · exfalso
      have h8 := hmax C9qB (by decide)
      rw [he] at h8
      exact absurd h8 (by decide)
    · rw [hsub, he]
      decide

end App
